import Mathlib

/-!
Verification of the trayson broker (`src/main.rs`): a StatusNotifierWatcher /
StatusNotifierHost daemon. We shallowly embed the data model and the
operations of the program: the watcher registry (`StatusNotifierWatcher`
struct and its three bus methods), the per-peer session pipeline (pixel
reordering, `DefaultHasher` content hashing, `RgbaImage::from_vec`
validation), the aggregator loop over the item-update channel, and the
channel-level event ordering between the liveness task and the feedback
loop. Machine integers are modelled as `Nat`/`Int` with explicit `% 2^64`
where wrapping matters.
-/

/-- Rust `struct Icon \x7b width: usize, height: usize, path: String \x7d` from main.rs. -/
structure Icon where
  width : Nat
  height : Nat
  path : String
deriving DecidableEq

/-- Rust `struct Item \x7b title: String, icon: Icon \x7d` from main.rs. -/
structure Item where
  title : String
  icon : Icon
deriving DecidableEq

/-! ## Pixel reordering (main.rs lines 271-278)

`icon.2.chunks_exact(4)` yields each complete 4-byte group `[A,R,G,B]`
(the remainder shorter than 4 is dropped); each group is mapped to
`[pixel[1], pixel[2], pixel[3], pixel[0]] = [R,G,B,A]` and the groups are
concatenated by the fold. Bytes are modelled as `Nat`. -/

/-- Rust `chunks_exact(4)`: the complete 4-element chunks of a byte list,
dropping the trailing remainder. -/
def chunksExact4 : List Nat → List (Nat × Nat × Nat × Nat)
  | a :: b :: c :: d :: rest => (a, b, c, d) :: chunksExact4 rest
  | _ => []

/-- The session's ARGB→RGBA conversion: chunk, reorder each chunk to
`[pixel[1], pixel[2], pixel[3], pixel[0]]`, concatenate (the
`fold(Vec::new(), extend)`). -/
def convertPixels (raw : List Nat) : List Nat :=
  ((chunksExact4 raw).map
    (fun pixel => [pixel.2.1, pixel.2.2.1, pixel.2.2.2, pixel.1])).foldl
      (fun state x => state ++ x) []

/-! ## DefaultHasher (std SipHash-1-3 with keys (0,0)) and the icon path

main.rs lines 280-283: `DefaultHasher::new()`, `Hash::hash_slice(&img, ...)`
(which for `u8` writes the raw bytes), `format!("{:x}.png", hasher.finish())`
pushed onto `temp_dir()`. `DefaultHasher` is SipHash-1-3 with both keys 0;
we embed it over `Nat` with explicit wrapping at `2^64`. -/

/-- 64-bit wrapping addition. -/
def wrapAdd64 (a b : Nat) : Nat := (a + b) % 2 ^ 64

/-- 64-bit left rotation. -/
def rotl64 (x r : Nat) : Nat :=
  ((x * 2 ^ r) % 2 ^ 64) ||| (x / 2 ^ (64 - r))

/-- The four 64-bit SipHash state words. -/
structure SipState where
  v0 : Nat
  v1 : Nat
  v2 : Nat
  v3 : Nat

/-- One SipRound. -/
def sipRound (s : SipState) : SipState :=
  let v0 := wrapAdd64 s.v0 s.v1
  let v1 := rotl64 s.v1 13
  let v1 := Nat.xor v1 v0
  let v0 := rotl64 v0 32
  let v2 := wrapAdd64 s.v2 s.v3
  let v3 := rotl64 s.v3 16
  let v3 := Nat.xor v3 v2
  let v0 := wrapAdd64 v0 v3
  let v3 := rotl64 v3 21
  let v3 := Nat.xor v3 v0
  let v2 := wrapAdd64 v2 v1
  let v1 := rotl64 v1 17
  let v1 := Nat.xor v1 v2
  let v2 := rotl64 v2 32
  ⟨v0, v1, v2, v3⟩

/-- Absorb one 8-byte message word: `v3 ^= m`, one round (c = 1), `v0 ^= m`. -/
def sipCompress (s : SipState) (m : Nat) : SipState :=
  let s := { s with v3 := Nat.xor s.v3 m }
  let s := sipRound s
  { s with v0 := Nat.xor s.v0 m }

/-- Little-endian word of up to 8 bytes. -/
def leWord (bytes : List Nat) : Nat :=
  bytes.foldr (fun b acc => b + acc * 256) 0

/-- SipHash initial state for keys `(0, 0)` (what `DefaultHasher::new` uses). -/
def sipInit : SipState :=
  ⟨0x736f6d6570736575, 0x646f72616e646f6d, 0x6c7967656e657261, 0x7465646279746573⟩

/-- Absorb the whole byte stream: full 8-byte words, then the final word
holding the remaining bytes plus `(totalLen % 256) << 56`. -/
def sipBlocks (totalLen : Nat) : SipState → List Nat → SipState
  | s, b0 :: b1 :: b2 :: b3 :: b4 :: b5 :: b6 :: b7 :: rest =>
      sipBlocks totalLen (sipCompress s (leWord [b0, b1, b2, b3, b4, b5, b6, b7])) rest
  | s, rest => sipCompress s (leWord rest + totalLen % 256 * 2 ^ 56)

/-- Finalization: `v2 ^= 0xff`, three rounds (d = 3), xor the four words. -/
def sipFinish (s : SipState) : Nat :=
  let s := { s with v2 := Nat.xor s.v2 0xff }
  let s := sipRound (sipRound (sipRound s))
  Nat.xor (Nat.xor s.v0 s.v1) (Nat.xor s.v2 s.v3)

/-- Hashing a byte slice with `DefaultHasher`: `Hash::hash_slice` for `u8` writes the
bytes verbatim, `finish` completes SipHash-1-3 with the length byte. -/
def defaultHash (bytes : List Nat) : Nat :=
  sipFinish (sipBlocks bytes.length sipInit bytes)

/-- Lowercase-hex rendering of a `Nat`, as Rust's `{:x}` format. -/
def hexLower (n : Nat) : String := String.mk (Nat.toDigits 16 n)

/-- The icon file path: `temp_dir` joined with `format!("{:x}.png", hash)`
of the (already reordered) pixel bytes (main.rs lines 280-283). The system
temporary directory is a parameter. -/
def iconPath (tmpDir : String) (img : List Nat) : String :=
  tmpDir ++ "/" ++ hexLower (defaultHash img) ++ ".png"

/-- The path the session stores a pixmap entry `(width, height, rawBytes)`
under: the hash is computed over the reordered bytes only. -/
def sessionIconPath (tmpDir : String) (entry : Int × Int × List Nat) : String :=
  iconPath tmpDir (convertPixels entry.2.2)

/-! ## Snapshot construction (main.rs lines 264-302)

The fallible conversions the code `unwrap`s are modelled in `Option`, with
`none` standing for the panic: `u32::try_from(i32)` fails exactly on
negatives, `RgbaImage::from_vec(w, h, buf)` fails when the buffer is
shorter than `w * h * 4` bytes, `usize::try_from(i32)` (64-bit target)
fails exactly on negatives. -/

/-- Rust `u32::try_from` on an `i32` value modelled as `Int`. -/
def u32TryFrom (i : Int) : Option Nat :=
  if 0 ≤ i ∧ i < 2 ^ 32 then some i.toNat else none

/-- Rust `usize::try_from` on an `i32` value (64-bit target). -/
def usizeTryFrom (i : Int) : Option Nat :=
  if 0 ≤ i ∧ i < 2 ^ 64 then some i.toNat else none

/-- Rust `RgbaImage::from_vec(w, h, buf)`: succeeds iff the container holds at
least `w * h * 4` bytes (for i32-derived `w`, `h` the `u64` length-overflow
check in the image crate cannot fire). Returns the backing buffer. -/
def rgbaFromVec (w h : Nat) (buf : List Nat) : Option (List Nat) :=
  if w * h * 4 ≤ buf.length then some buf else none

/-- The snapshot-task body for one pixmap entry `(icon.0, icon.1, icon.2)`:
reorder the pixels, compute the content-addressed path, run the unchecked
conversions in code order (`u32::try_from` width then height,
`RgbaImage::from_vec`, then `usize::try_from` width and height for the
`Item`). `none` is a panic of the session. -/
def buildItem (title : String) (entry : Int × Int × List Nat) (tmpDir : String) :
    Option Item := do
  let img := convertPixels entry.2.2
  let path := iconPath tmpDir img
  let w32 ← u32TryFrom entry.1
  let h32 ← u32TryFrom entry.2.1
  let _buf ← rgbaFromVec w32 h32 img
  let w ← usizeTryFrom entry.1
  let h ← usizeTryFrom entry.2.1
  some { title := title, icon := { width := w, height := h, path := path } }

/-- The bus responses one peer gives its session; `none` models a bus error
on that call (which the code `unwrap`s). -/
structure PeerBus where
  subscribeOk : Bool
  title : Option String
  iconPixmap : Option (List (Int × Int × List Nat))

/-- One peer session's snapshot pipeline (main.rs lines 251-302): subscribe
(`receive_owner_changed` / `receive_all_signals`, both unwrapped), fetch
`Title`, fetch `IconPixmap`, index `[0]` (panics on an empty list), build
the item. `none` is a session panic. -/
def sessionBody (tmpDir : String) (b : PeerBus) : Option Item := do
  let _ ← if b.subscribeOk then some () else none
  let t ← b.title
  let pix ← b.iconPixmap
  let first ← pix[0]?
  buildItem t first tmpDir

/-- Whether the process survives. -/
inductive ProcessOutcome
  | running
  | aborted
deriving DecidableEq

/-- The sessions run inside `for_each_concurrent` on the main task and every
failure is an `unwrap` panic (including the final `try_join!(..).unwrap()`
at line 326), so a panic in any one session aborts the whole process. -/
def runSessions (tmpDir : String) (peers : List PeerBus) : ProcessOutcome :=
  if peers.all (fun b => (sessionBody tmpDir b).isSome) then .running else .aborted

/-! ## The watcher registry (main.rs lines 120-206) -/

/-- The bus notifications the watcher emits: the two property-changed
notifications and the three signals. -/
inductive Notif
  | itemsChanged
  | itemRegistered (service : String)
  | itemUnregistered (service : String)
  | hostRegisteredChanged
  | hostRegistered (service : String)
deriving DecidableEq

/-- Rust `struct StatusNotifierWatcher \x7b registered: bool, items: HashSet<String> \x7d`;
the set is modelled as a duplicate-free list. -/
structure WatcherState where
  registered : Bool
  items : List String
deriving DecidableEq

/-- Rust `HashSet::insert`: add the element if absent. -/
def hsInsert (l : List String) (x : String) : List String :=
  if x ∈ l then l else x :: l

/-- Method `register_status_notifier_item`: insert, then unconditionally emit the
`RegisteredStatusNotifierItems` property-changed notification and the
`StatusNotifierItemRegistered` signal (lines 145-155). -/
def registerStatusNotifierItem (st : WatcherState) (service : String) :
    WatcherState × List Notif :=
  ({ st with items := hsInsert st.items service },
   [.itemsChanged, .itemRegistered service])

/-- Method `unregister_status_notifier_item`: remove, then unconditionally emit the
property-changed notification and the `StatusNotifierItemUnregistered`
signal (lines 157-167). -/
def unregisterStatusNotifierItem (st : WatcherState) (service : String) :
    WatcherState × List Notif :=
  ({ st with items := st.items.erase service },
   [.itemsChanged, .itemUnregistered service])

/-- Method `register_status_notifier_host`: set the flag, then emit the
`IsStatusNotifierHostRegistered` property-changed notification and the
`StatusNotifierHostRegistered` signal (lines 169-179). -/
def registerStatusNotifierHost (st : WatcherState) (service : String) :
    WatcherState × List Notif :=
  ({ st with registered := true },
   [.hostRegisteredChanged, .hostRegistered service])

/-- The watcher state built in `main` (lines 203-206). -/
def initWatcher : WatcherState := { registered := false, items := [] }

/-- The three bus operations callable on the watcher. -/
inductive WatcherOp
  | regItem (service : String)
  | unregItem (service : String)
  | regHost (service : String)
deriving DecidableEq

/-- Apply one operation, dropping the notifications. -/
def applyOp (st : WatcherState) : WatcherOp → WatcherState
  | .regItem s => (registerStatusNotifierItem st s).1
  | .unregItem s => (unregisterStatusNotifierItem st s).1
  | .regHost s => (registerStatusNotifierHost st s).1

/-- Run a sequence of watcher operations. -/
def runOps (st : WatcherState) (ops : List WatcherOp) : WatcherState :=
  ops.foldl applyOp st

/-! ## The aggregator (main.rs lines 329-343)

`items: HashMap<String, Item>`, modelled as a key-unique association list:
`insert` overwrites, `remove` deletes, and after every received event the
loop prints the JSON of `items.values()` — the full current value set. -/

/-- The aggregate map. -/
abbrev AggMap := List (String × Item)

/-- Rust `HashMap::remove`. -/
def mapRemove (m : AggMap) (k : String) : AggMap :=
  m.filter (fun kv => kv.1 != k)

/-- Rust `HashMap::insert` (overwrite semantics). -/
def mapInsert (m : AggMap) (k : String) (v : Item) : AggMap :=
  (k, v) :: mapRemove m k

/-- One aggregator event: `if let Some(v) = item { insert } else { remove }`. -/
def aggApply (m : AggMap) (ev : String × Option Item) : AggMap :=
  match ev.2 with
  | some v => mapInsert m ev.1 v
  | none => mapRemove m ev.1

/-- The content handed to the serializer after an event:
`items.values().collect()` — every snapshot currently in the map. -/
def aggFrame (m : AggMap) : List Item := m.map (fun kv => kv.2)

/-- One loop iteration: the updated map and the frames emitted during the
iteration (always exactly one, the full serialization of the new map). -/
def aggStep (m : AggMap) (ev : String × Option Item) : AggMap × List (List Item) :=
  (aggApply m ev, [aggFrame (aggApply m ev)])

/-- The map after processing a message sequence. -/
def aggStateAfter (m0 : AggMap) (msgs : List (String × Option Item)) : AggMap :=
  msgs.foldl aggApply m0

/-- The frame emitted right after processing message `k` (messages are
numbered from 0). -/
def aggFrameAt (m0 : AggMap) (msgs : List (String × Option Item)) (k : Nat) :
    List Item :=
  aggFrame (aggStateAfter m0 (msgs.take (k + 1)))

/-! ## Channel-level event model (main.rs lines 244-362)

Both channels are unbounded FIFO. The item-update channel `s2`/`r2` feeds
the aggregator; the peer-died channel `s`/`r` feeds the feedback loop, and
the feedback loop is the only sender of `(service, None)` on `s2` — it
sends it after receiving `service` from `r` and awaiting the
`UnregisterStatusNotifierItem` round-trip. A trace is the global
time-ordered list of channel sends. -/

/-- A channel send: an item-update on `s2`, or a departure on `s`. -/
inductive SendEv
  | update (peer : String) (payload : Option Item)
  | died (peer : String)
deriving DecidableEq

/-- The `s2` message sequence induced by a trace (FIFO: receive order equals
send order). -/
def s2Of : List SendEv → List (String × Option Item)
  | [] => []
  | .update p pay :: rest => (p, pay) :: s2Of rest
  | .died _ :: rest => s2Of rest

/-- Recognizes a `Some`-update send for peer `p`. -/
def isSomeUpd (p : String) : SendEv → Bool
  | .update q (some _) => q == p
  | _ => false

/-- Recognizes a `None`-update send for peer `p`. -/
def isNoneUpd (p : String) : SendEv → Bool
  | .update q none => q == p
  | _ => false

/-- Recognizes the liveness task's departure send for peer `p`. -/
def isDied (p : String) : SendEv → Bool
  | .died q => q == p
  | _ => false

/-- Recognizes an aggregator message `(p, Some _)`. -/
def isSomeMsg (p : String) (msg : String × Option Item) : Bool :=
  msg.1 == p && msg.2.isSome

/-- Recognizes an aggregator message `(p, None)`. -/
def isNoneMsg (p : String) (msg : String × Option Item) : Bool :=
  msg.1 == p && msg.2.isNone

/-! ## The feedback loop body (main.rs lines 348-362) -/

/-- The observable steps of one feedback-loop iteration. -/
inductive FeedbackAct
  | callUnregister (service : String)
  | sendNone (service : String)
deriving DecidableEq

/-- One iteration of the feedback loop, for a received `service`: await the
`UnregisterStatusNotifierItem` bus round-trip, then send `(service, None)`
on the item-update channel — in that order. -/
def feedbackBody (service : String) : List FeedbackAct :=
  [.callUnregister service, .sendNone service]

/-- The two peers used by the C1 failing run: `goodPeer` answers every bus
call, `badPeer` fails the `Title` property fetch. -/
def goodPeer : PeerBus :=
  { subscribeOk := true, title := some "App1", iconPixmap := some [(1, 1, [0, 1, 2, 3])] }

/-- A peer whose `Title` property fetch returns a bus error. -/
def badPeer : PeerBus :=
  { subscribeOk := true, title := none, iconPixmap := some [(1, 1, [0, 1, 2, 3])] }

/-- A concrete snapshot value for the C5 witness trace. -/
def c5SampleItem : Item :=
  { title := "A", icon := { width := 1, height := 1, path := "p" } }

/-- A concrete global send trace: snapshot produced, departure observed,
`None` forwarded by the feedback loop. -/
def c5Trace : List SendEv :=
  [SendEv.update "a" (some c5SampleItem), SendEv.died "a", SendEv.update "a" none]

/-! ## Lemmas about the pixel conversion -/

/-- Folding list-append from an accumulator concatenates the lists. -/
theorem foldl_append_eq (l : List (List Nat)) :
    ∀ acc : List Nat, l.foldl (fun state x => state ++ x) acc = acc ++ l.flatten := by
  induction l with
  | nil => intro acc; simp
  | cons x xs ih => intro acc; simp [ih, List.append_assoc]

/-- One conversion step on a complete leading chunk. -/
theorem convertPixels_cons (a b c d : Nat) (rest : List Nat) :
    convertPixels (a :: b :: c :: d :: rest) = b :: c :: d :: a :: convertPixels rest := by
  simp [convertPixels, chunksExact4, foldl_append_eq]

/-- Number of complete chunks. -/
theorem chunksExact4_length : ∀ raw : List Nat, (chunksExact4 raw).length = raw.length / 4
  | [] => by simp [chunksExact4]
  | [_] => by simp [chunksExact4]
  | [_, _] => by simp [chunksExact4]
  | [_, _, _] => by simp [chunksExact4]
  | _ :: _ :: _ :: _ :: rest => by
      simp [chunksExact4, chunksExact4_length rest]
      omega

/-- The converted buffer holds `4 * (len / 4)` bytes: a trailing remainder
shorter than 4 bytes is silently dropped. -/
theorem convertPixels_length : ∀ raw : List Nat,
    (convertPixels raw).length = 4 * (raw.length / 4)
  | [] => by simp [convertPixels, chunksExact4]
  | [_] => by simp [convertPixels, chunksExact4]
  | [_, _] => by simp [convertPixels, chunksExact4]
  | [_, _, _] => by simp [convertPixels, chunksExact4]
  | a :: b :: c :: d :: rest => by
      rw [convertPixels_cons]
      simp [convertPixels_length rest]
      omega

/-- Skipping four leading elements of a list shifts the optional index by 4. -/
theorem getElem?_cons4 (w x y z : Nat) (l : List Nat) (n : Nat) :
    (w :: x :: y :: z :: l)[n + 4]? = l[n]? := by
  rw [show n + 4 = n + 1 + 1 + 1 + 1 by omega]
  simp

/-- Claim C7: each consecutive 4-byte group `[A,R,G,B]` of the raw buffer is
reordered to `[R,G,B,A]` before hashing and encoding: within the converted
buffer, byte `4i` is input byte `4i+1`, byte `4i+1` is input byte `4i+2`,
byte `4i+2` is input byte `4i+3`, and byte `4i+3` is input byte `4i`. -/
theorem c7_pixel_reorder : ∀ (raw : List Nat) (i : Nat),
    4 * i + 3 < (convertPixels raw).length →
    (convertPixels raw)[4 * i]? = raw[4 * i + 1]?
    ∧ (convertPixels raw)[4 * i + 1]? = raw[4 * i + 2]?
    ∧ (convertPixels raw)[4 * i + 2]? = raw[4 * i + 3]?
    ∧ (convertPixels raw)[4 * i + 3]? = raw[4 * i]?
  | [], i, h => by
      rw [convertPixels_length] at h
      simp only [List.length_cons, List.length_nil] at h
      omega
  | [_], i, h => by
      rw [convertPixels_length] at h
      simp only [List.length_cons, List.length_nil] at h
      omega
  | [_, _], i, h => by
      rw [convertPixels_length] at h
      simp only [List.length_cons, List.length_nil] at h
      omega
  | [_, _, _], i, h => by
      rw [convertPixels_length] at h
      simp only [List.length_cons, List.length_nil] at h
      omega
  | a :: b :: c :: d :: rest, 0, h => by
      rw [convertPixels_cons]
      simp
  | a :: b :: c :: d :: rest, i + 1, h => by
      rw [convertPixels_cons] at h
      have h' : 4 * i + 3 < (convertPixels rest).length := by
        simp at h; omega
      obtain ⟨e1, e2, e3, e4⟩ := c7_pixel_reorder rest i h'
      rw [convertPixels_cons]
      refine ⟨?_, ?_, ?_, ?_⟩
      · rw [show 4 * (i + 1) = 4 * i + 4 by ring, getElem?_cons4,
          show 4 * i + 4 + 1 = 4 * i + 1 + 4 by ring, getElem?_cons4]
        exact e1
      · rw [show 4 * (i + 1) = 4 * i + 4 by ring,
          show 4 * i + 4 + 1 = 4 * i + 1 + 4 by ring, getElem?_cons4,
          show 4 * i + 4 + 2 = 4 * i + 2 + 4 by ring, getElem?_cons4]
        exact e2
      · rw [show 4 * (i + 1) = 4 * i + 4 by ring,
          show 4 * i + 4 + 2 = 4 * i + 2 + 4 by ring, getElem?_cons4,
          show 4 * i + 4 + 3 = 4 * i + 3 + 4 by ring, getElem?_cons4]
        exact e3
      · rw [show 4 * (i + 1) = 4 * i + 4 by ring,
          show 4 * i + 4 + 3 = 4 * i + 3 + 4 by ring, getElem?_cons4, getElem?_cons4]
        exact e4

/-- Witness for C7 at a concrete two-pixel buffer and `i = 1`. -/
theorem c7_pixel_reorder_witness :
    4 * 1 + 3 < (convertPixels [10, 20, 30, 40, 50, 60, 70, 80]).length
    ∧ (convertPixels [10, 20, 30, 40, 50, 60, 70, 80])[4 * 1]?
      = [10, 20, 30, 40, 50, 60, 70, 80][4 * 1 + 1]? :=
  ⟨by decide, (c7_pixel_reorder [10, 20, 30, 40, 50, 60, 70, 80] 1 (by decide)).1⟩

/-- Claim C8: for a peer whose `IconPixmap` list is non-empty the session
builds its snapshot from the first entry (index 0) unconditionally; the
result does not depend on the remaining entries, so no resolution-preference
selection happens. -/
theorem c8_first_pixmap_entry (tmpDir t : String) (e : Int × Int × List Nat)
    (rest : List (Int × Int × List Nat)) :
    sessionBody tmpDir ⟨true, some t, some (e :: rest)⟩ = buildItem t e tmpDir := by
  simp [sessionBody]

/-- Counterexample to claim C10 as stated: with first entry `(1, 1, raw)`
and `raw` of 8 bytes, the reordered buffer length is 8 ≠ 1·1·4, yet the
conversion succeeds, because `RgbaImage::from_vec` only requires the buffer
to be at least as long as `width·height·4`. -/
theorem c10_counterexample :
    (buildItem "t" (1, 1, [0, 1, 2, 3, 4, 5, 6, 7]) "/tmp").isSome = true
    ∧ (convertPixels [0, 1, 2, 3, 4, 5, 6, 7]).length ≠ 1 * 1 * 4 := by
  decide

/-- Claim C10 (amended): for an i32-ranged first entry, snapshot icon
construction succeeds iff width and height are non-negative and the
reordered buffer holds at least `width·height·4` bytes (at least, not
exactly equal as claimed); and trailing raw bytes beyond a multiple of 4
are silently dropped by `chunks_exact(4)`, the converted length being
`4 * (rawLen / 4)`. -/
theorem c10_amended (t tmpDir : String) (w h : Int) (raw : List Nat)
    (hw : w < 2 ^ 31) (hh : h < 2 ^ 31) :
    ((buildItem t (w, h, raw) tmpDir).isSome = true
      ↔ 0 ≤ w ∧ 0 ≤ h ∧ w.toNat * h.toNat * 4 ≤ (convertPixels raw).length)
    ∧ (convertPixels raw).length = 4 * (raw.length / 4) := by
  refine ⟨?_, convertPixels_length raw⟩
  have hw31 : w < 2147483648 := by norm_num at hw; exact hw
  have hh31 : h < 2147483648 := by norm_num at hh; exact hh
  by_cases h0w : 0 ≤ w
  · by_cases h0h : 0 ≤ h
    · have ew : u32TryFrom w = some w.toNat := by
        simp only [u32TryFrom]
        rw [if_pos ⟨h0w, lt_of_lt_of_le hw31 (by norm_num)⟩]
      have eh : u32TryFrom h = some h.toNat := by
        simp only [u32TryFrom]
        rw [if_pos ⟨h0h, lt_of_lt_of_le hh31 (by norm_num)⟩]
      have ew2 : usizeTryFrom w = some w.toNat := by
        simp only [usizeTryFrom]
        rw [if_pos ⟨h0w, lt_of_lt_of_le hw31 (by norm_num)⟩]
      have eh2 : usizeTryFrom h = some h.toNat := by
        simp only [usizeTryFrom]
        rw [if_pos ⟨h0h, lt_of_lt_of_le hh31 (by norm_num)⟩]
      by_cases hlen : w.toNat * h.toNat * 4 ≤ (convertPixels raw).length
      · simp [buildItem, ew, eh, ew2, eh2, rgbaFromVec, hlen, h0w, h0h]
      · simp [buildItem, ew, eh, rgbaFromVec, hlen]
    · have eh : u32TryFrom h = none := by simp [u32TryFrom, h0h]
      have ew : u32TryFrom w = some w.toNat := by
        simp only [u32TryFrom]
        rw [if_pos ⟨h0w, lt_of_lt_of_le hw31 (by norm_num)⟩]
      simp [buildItem, ew, eh, h0h]
  · have ew : u32TryFrom w = none := by simp [u32TryFrom, h0w]
    simp [buildItem, ew, h0w]

/-- Witness for C10's amended theorem at entry `(1, 1, [0, 1, 2, 3])`. -/
theorem c10_amended_witness :
    (buildItem "t" (1, 1, [0, 1, 2, 3]) "/tmp").isSome = true
      ↔ 0 ≤ (1 : Int) ∧ 0 ≤ (1 : Int)
        ∧ (1 : Int).toNat * (1 : Int).toNat * 4 ≤ (convertPixels [0, 1, 2, 3]).length :=
  (c10_amended "t" "/tmp" 1 1 [0, 1, 2, 3] (by decide) (by decide)).1

/-- Claim C4: the icon store is content-addressed and deterministic — the
path does not depend on width or height, only on the pixel byte sequence;
it is the temporary directory joined with the lowercase-hex SipHash-1-3
digest of the (reordered) pixel bytes plus `.png`; and the path recorded in
a successfully built snapshot is exactly that path. -/
theorem c4_icon_path_content_addressed (tmpDir t : String) (w h wq hq : Int)
    (raw : List Nat) :
    sessionIconPath tmpDir (w, h, raw) = sessionIconPath tmpDir (wq, hq, raw)
    ∧ sessionIconPath tmpDir (w, h, raw)
      = tmpDir ++ "/" ++ hexLower (defaultHash (convertPixels raw)) ++ ".png"
    ∧ (buildItem t (w, h, raw) tmpDir).map (fun it => it.icon.path)
      = (buildItem t (w, h, raw) tmpDir).map
          (fun _ => sessionIconPath tmpDir (w, h, raw)) := by
  refine ⟨rfl, rfl, ?_⟩
  unfold buildItem
  rcases ew : u32TryFrom w with _ | w32
  · rfl
  · rcases eh : u32TryFrom h with _ | h32
    · simp [ew, eh]
    · rcases eb : rgbaFromVec w32 h32 (convertPixels raw) with _ | buf
      · simp [ew, eh, eb]
      · rcases ew2 : usizeTryFrom w with _ | wn
        · simp [ew, eh, eb, ew2]
        · rcases eh2 : usizeTryFrom h with _ | hn
          · simp [ew, eh, eb, ew2, eh2]
          · simp [ew, eh, eb, ew2, eh2, sessionIconPath]

/-! ## Lemmas about the watcher registry -/

/-- Inserting makes the element a member. -/
theorem mem_hsInsert_self (l : List String) (p : String) : p ∈ hsInsert l p := by
  by_cases h : p ∈ l <;> simp [hsInsert, h]

/-- Inserting twice is the same as inserting once. -/
theorem hsInsert_idem (l : List String) (p : String) :
    hsInsert (hsInsert l p) p = hsInsert l p := by
  show (if p ∈ hsInsert l p then hsInsert l p else p :: hsInsert l p) = hsInsert l p
  exact if_pos (mem_hsInsert_self l p)

/-- On a duplicate-free list, insertion yields exactly one copy. -/
theorem count_hsInsert_self (l : List String) (p : String) (hnd : l.Nodup) :
    (hsInsert l p).count p = 1 := by
  by_cases h : p ∈ l
  · simp only [hsInsert]
    rw [if_pos h]
    exact List.count_eq_one_of_mem hnd h
  · simp only [hsInsert]
    rw [if_neg h, List.count_cons_self, List.count_eq_zero_of_not_mem h]

/-- Claim C3: register and unregister are idempotent on the peer set but
always notify — registering a peer twice leaves it in the set exactly once
while both calls emit the property-changed notification and the
`StatusNotifierItemRegistered` signal; unregistering an absent peer leaves
the set unchanged while still emitting the property-changed notification
and the `StatusNotifierItemUnregistered` signal. -/
theorem c3_register_unregister_idempotent (st : WatcherState) (p : String)
    (hnd : st.items.Nodup) :
    ((registerStatusNotifierItem (registerStatusNotifierItem st p).1 p).1.items.count p = 1
      ∧ (registerStatusNotifierItem st p).2 = [Notif.itemsChanged, Notif.itemRegistered p]
      ∧ (registerStatusNotifierItem (registerStatusNotifierItem st p).1 p).2
          = [Notif.itemsChanged, Notif.itemRegistered p])
    ∧ (p ∉ st.items →
        (unregisterStatusNotifierItem st p).1.items = st.items
        ∧ (unregisterStatusNotifierItem st p).2
          = [Notif.itemsChanged, Notif.itemUnregistered p]) := by
  refine ⟨⟨?_, rfl, rfl⟩, fun hp => ⟨List.erase_of_not_mem hp, rfl⟩⟩
  show (hsInsert (hsInsert st.items p) p).count p = 1
  rw [hsInsert_idem]
  exact count_hsInsert_self st.items p hnd

/-- Witness for C3 starting from the initial watcher state. -/
theorem c3_register_unregister_idempotent_witness :
    (registerStatusNotifierItem
      (registerStatusNotifierItem initWatcher "svc").1 "svc").1.items.count "svc" = 1 :=
  (c3_register_unregister_idempotent initWatcher "svc" (by simp [initWatcher])).1.1

/-- Claim C9: the consumer-presence flag starts `false`, is set to `true`
only by `register_status_notifier_host` (which also emits the
property-changed and host-registered notifications), no operation changes
it otherwise, and once `true` it stays `true` under every operation
sequence. -/
theorem c9_consumer_flag_monotone :
    initWatcher.registered = false
    ∧ (∀ (st : WatcherState) (s : String),
        (registerStatusNotifierHost st s).1.registered = true
        ∧ (registerStatusNotifierHost st s).2
          = [Notif.hostRegisteredChanged, Notif.hostRegistered s])
    ∧ (∀ (st : WatcherState) (op : WatcherOp), (∀ s, op ≠ WatcherOp.regHost s) →
        (applyOp st op).registered = st.registered)
    ∧ (∀ (st : WatcherState) (ops : List WatcherOp), st.registered = true →
        (runOps st ops).registered = true) := by
  refine ⟨rfl, fun st s => ⟨rfl, rfl⟩, ?_, ?_⟩
  · intro st op hop
    cases op with
    | regItem s => rfl
    | unregItem s => rfl
    | regHost s => exact absurd rfl (hop s)
  · intro st ops
    induction ops generalizing st with
    | nil => intro hr; exact hr
    | cons op rest ih =>
      intro hr
      show (runOps (applyOp st op) rest).registered = true
      apply ih
      cases op with
      | regItem s => exact hr
      | unregItem s => exact hr
      | regHost s => rfl

/-- Witness for C9: the flag, once `true`, survives further operations. -/
theorem c9_consumer_flag_monotone_witness :
    (runOps { registered := true, items := [] }
      [WatcherOp.regItem "a", WatcherOp.unregItem "a"]).registered = true :=
  c9_consumer_flag_monotone.2.2.2 { registered := true, items := [] }
    [WatcherOp.regItem "a", WatcherOp.unregItem "a"] rfl

/-! ## Lemmas about the aggregate map -/

/-- After removal the removed key has no binding. -/
theorem lookup_mapRemove_self (m : AggMap) (k : String) :
    (mapRemove m k).lookup k = none := by
  induction m with
  | nil => rfl
  | cons kv rest ih =>
    rcases kv with ⟨q, v⟩
    by_cases hq : q = k
    · simpa [mapRemove, hq] using ih
    · simpa [mapRemove, List.filter_cons, hq, List.lookup_cons,
        beq_false_of_ne (Ne.symm hq)] using ih

/-- Removal does not touch other keys. -/
theorem lookup_mapRemove_ne (m : AggMap) (k q : String) (h : q ≠ k) :
    (mapRemove m k).lookup q = m.lookup q := by
  induction m with
  | nil => rfl
  | cons kv rest ih =>
    rcases kv with ⟨r, v⟩
    by_cases hr : r = k
    · subst hr
      simpa [mapRemove, List.filter_cons, List.lookup_cons,
        beq_false_of_ne h] using ih
    · by_cases hqr : q = r
      · subst hqr
        simp [mapRemove, List.filter_cons, hr, List.lookup_cons]
      · simpa [mapRemove, List.filter_cons, hr, List.lookup_cons,
          beq_false_of_ne hqr] using ih

/-- Insertion binds the inserted key to the new value. -/
theorem lookup_mapInsert_self (m : AggMap) (k : String) (v : Item) :
    (mapInsert m k v).lookup k = some v := by
  simp [mapInsert, List.lookup_cons]

/-- Insertion does not touch other keys. -/
theorem lookup_mapInsert_ne (m : AggMap) (k q : String) (v : Item) (h : q ≠ k) :
    (mapInsert m k v).lookup q = m.lookup q := by
  rw [mapInsert]
  rw [List.lookup_cons]
  simp [beq_false_of_ne h, lookup_mapRemove_ne m k q h]

/-- Removing an unbound key is a no-op. -/
theorem mapRemove_of_lookup_none (m : AggMap) (k : String)
    (h : m.lookup k = none) : mapRemove m k = m := by
  induction m with
  | nil => rfl
  | cons kv rest ih =>
    rcases kv with ⟨q, v⟩
    rw [List.lookup_cons] at h
    by_cases hq : k = q
    · simp [hq] at h
    · have hq2 : (q != k) = true := by
        simp only [bne_iff_ne]
        exact fun e => hq e.symm
      rw [beq_false_of_ne hq] at h
      simp only [mapRemove, List.filter_cons, hq2, if_pos]
      rw [show rest.filter (fun kv => kv.1 != k) = mapRemove rest k from rfl, ih h]

/-- Every stored value appears in the emitted frame. -/
theorem mem_aggFrame_of_lookup (m : AggMap) (q : String) (w : Item)
    (h : m.lookup q = some w) : w ∈ aggFrame m := by
  induction m with
  | nil => simp [List.lookup] at h
  | cons kv rest ih =>
    rcases kv with ⟨r, v⟩
    rw [List.lookup_cons] at h
    by_cases hq : q = r
    · simp [hq] at h
      simp [aggFrame, h]
    · rw [beq_false_of_ne hq] at h
      simp [aggFrame] at ih ⊢
      exact Or.inr (ih h)

/-- Claim C2: a `Some` event inserts or overwrites that peer's entry and a
`None` event removes it (a no-op when absent), in both cases leaving every
other peer's entry untouched; and every processed event — including a no-op
removal — emits exactly one output frame holding the serialization input of
the full current map (every stored snapshot value appears in it), never a
delta. -/
theorem c2_aggregator_event (m : AggMap) (p : String) (v : Item) :
    ((aggApply m (p, some v)).lookup p = some v
      ∧ (∀ q, q ≠ p → (aggApply m (p, some v)).lookup q = m.lookup q))
    ∧ ((aggApply m (p, none)).lookup p = none
      ∧ (∀ q, q ≠ p → (aggApply m (p, none)).lookup q = m.lookup q)
      ∧ (m.lookup p = none → aggApply m (p, none) = m))
    ∧ (∀ ev : String × Option Item,
        (aggStep m ev).2.length = 1
        ∧ ∀ fr ∈ (aggStep m ev).2, ∀ q w,
            (aggStep m ev).1.lookup q = some w → w ∈ fr) := by
  refine ⟨⟨lookup_mapInsert_self m p v, fun q hq => lookup_mapInsert_ne m p q v hq⟩,
    ⟨lookup_mapRemove_self m p, fun q hq => lookup_mapRemove_ne m p q hq,
      fun hnone => mapRemove_of_lookup_none m p hnone⟩,
    fun ev => ⟨rfl, ?_⟩⟩
  intro fr hfr q w hw
  have hfr2 : fr = aggFrame (aggApply m ev) := by
    simpa [aggStep] using hfr
  rw [hfr2]
  exact mem_aggFrame_of_lookup (aggApply m ev) q w hw

/-- Witness for C2 on a two-entry map: the untouched peer keeps its binding
after an insert for another peer. -/
theorem c2_aggregator_event_witness :
    (aggApply [("b", { title := "B", icon := { width := 1, height := 1, path := "pb" } })]
      ("a", some { title := "A", icon := { width := 2, height := 2, path := "pa" } })).lookup "b"
      = some { title := "B", icon := { width := 1, height := 1, path := "pb" } } :=
  ((c2_aggregator_event
    [("b", { title := "B", icon := { width := 1, height := 1, path := "pb" } })] "a"
    { title := "A", icon := { width := 2, height := 2, path := "pa" } }).1.2 "b"
    (by decide))

/-- Claim C1 (code bug): the claim demands that a transport or protocol
error inside one peer session terminate only that session, but in the code
every such error is an `unwrap` panic inside `for_each_concurrent` on the
main task (and `try_join!(..).unwrap()` at line 326), so one peer whose
`Title` fetch fails aborts the whole process even though the other
session's snapshot pipeline succeeds. -/
theorem c1_bad_peer_aborts_process :
    (sessionBody "/tmp" goodPeer).isSome = true
    ∧ (sessionBody "/tmp" badPeer).isSome = false
    ∧ runSessions "/tmp" [goodPeer, badPeer] = ProcessOutcome.aborted := by
  decide

/-- Counterexample to claim C6 as stated: in the feedback-loop body the
`(service, None)` item-update send is sequenced strictly after the awaited
`UnregisterStatusNotifierItem` round-trip, not delivered without waiting
for it. -/
theorem c6_counterexample :
    ¬ ((feedbackBody "peer1").indexOf (FeedbackAct.sendNone "peer1")
        < (feedbackBody "peer1").indexOf (FeedbackAct.callUnregister "peer1")) := by
  decide

/-- Claim C6 (amended): on a peer's departure the `(peer, None)` event is
sent to the Aggregator by the feedback loop only after the
`Registry.unregister` round-trip on the feedback edge completes: in every
feedback-loop iteration the unregister call precedes the `None` send. -/
theorem c6_amended (service : String) :
    (feedbackBody service).indexOf (FeedbackAct.callUnregister service)
      < (feedbackBody service).indexOf (FeedbackAct.sendNone service) := by
  simp [feedbackBody, List.indexOf_cons]

/-! ## Lemmas about traces and the item-update channel -/

/-- Counting over a longer prefix never decreases. -/
theorem countP_take_mono {α : Type} (l : List α) (f : α → Bool) (n m : Nat)
    (h : n ≤ m) : (l.take n).countP f ≤ (l.take m).countP f := by
  have e : l.take n = (l.take m).take n := by
    rw [List.take_take, Nat.min_eq_left h]
  rw [e]
  exact List.Sublist.countP_le f (List.take_sublist n (l.take m))

/-- `None` messages on the item-update channel correspond exactly to
`None`-update sends in the trace. -/
theorem countP_s2Of_none (p : String) : ∀ l : List SendEv,
    (s2Of l).countP (isNoneMsg p) = l.countP (isNoneUpd p)
  | [] => rfl
  | SendEv.update q pay :: rest => by
      cases pay with
      | none =>
          simp [s2Of, isNoneMsg, isNoneUpd, List.countP_cons, countP_s2Of_none p rest]
      | some it =>
          simp [s2Of, isNoneMsg, isNoneUpd, List.countP_cons, countP_s2Of_none p rest]
  | SendEv.died q :: rest => by
      simp [s2Of, isNoneUpd, List.countP_cons, countP_s2Of_none p rest]

/-- `Some` messages on the item-update channel correspond exactly to
`Some`-update sends in the trace. -/
theorem countP_s2Of_some (p : String) : ∀ l : List SendEv,
    (s2Of l).countP (isSomeMsg p) = l.countP (isSomeUpd p)
  | [] => rfl
  | SendEv.update q pay :: rest => by
      cases pay with
      | none =>
          simp [s2Of, isSomeMsg, isSomeUpd, List.countP_cons, countP_s2Of_some p rest]
      | some it =>
          simp [s2Of, isSomeMsg, isSomeUpd, List.countP_cons, countP_s2Of_some p rest]
  | SendEv.died q :: rest => by
      simp [s2Of, isSomeUpd, List.countP_cons, countP_s2Of_some p rest]

/-- Every prefix of the item-update message sequence is induced by some
prefix of the global send trace. -/
theorem s2Of_take (tr : List SendEv) : ∀ m : Nat,
    ∃ n, n ≤ tr.length ∧ (s2Of tr).take m = s2Of (tr.take n) := by
  induction tr with
  | nil => intro m; exact ⟨0, Nat.le_refl 0, by simp [s2Of]⟩
  | cons e rest ih =>
    intro m
    cases e with
    | update q pay =>
      cases m with
      | zero => exact ⟨0, by simp, by simp [s2Of]⟩
      | succ m' =>
        obtain ⟨n, hn, he⟩ := ih m'
        exact ⟨n + 1, by simpa using hn, by simp [s2Of, List.take_succ_cons, he]⟩
    | died q =>
      obtain ⟨n, hn, he⟩ := ih m
      exact ⟨n + 1, by simpa using hn, by simp [s2Of, List.take_succ_cons, he]⟩

/-- Unrolling the aggregator one message at a time. -/
theorem aggStateAfter_take_succ (m0 : AggMap) (msgs : List (String × Option Item))
    (k : Nat) (hk : k < msgs.length) :
    aggStateAfter m0 (msgs.take (k + 1))
      = aggApply (aggStateAfter m0 (msgs.take k)) (msgs.get ⟨k, hk⟩) := by
  rw [aggStateAfter, List.take_succ, List.foldl_append]
  simp [List.getElem?_eq_getElem hk, aggStateAfter]

/-- Claim C5: for a peer whose `Some` item-update send precedes its
departure send, the Aggregator processes the `Some` event strictly before
the `None` event — in every processed prefix that contains a `None` for the
peer, the `Some` was already processed — and the frame emitted right after
the `None` event is the serialization of a map with no entry for that peer.
Hypothesis `hfb` embeds the feedback-loop causality of main.rs lines
348-362: a `(p, None)` send happens only after the feedback loop received
`p` from the FIFO peer-died channel, so in no trace prefix do the `None`
sends outnumber the departure sends; `hprem` is the claim's premise, a
trace prefix containing the `Some` send but not yet the departure send. -/
theorem c5_some_processed_before_none (tr : List SendEv) (p : String) (m0 : AggMap)
    (hfb : ∀ n, n ≤ tr.length →
      (tr.take n).countP (isNoneUpd p) ≤ (tr.take n).countP (isDied p))
    (hprem : ∃ n, n ≤ tr.length ∧ 1 ≤ (tr.take n).countP (isSomeUpd p)
      ∧ (tr.take n).countP (isDied p) = 0) :
    (∀ m, 1 ≤ ((s2Of tr).take m).countP (isNoneMsg p) →
      1 ≤ ((s2Of tr).take m).countP (isSomeMsg p))
    ∧ (∀ k (hk : k < (s2Of tr).length), (s2Of tr).get ⟨k, hk⟩ = (p, none) →
        (aggStateAfter m0 ((s2Of tr).take (k + 1))).lookup p = none
        ∧ aggFrameAt m0 (s2Of tr) k
          = aggFrame (aggStateAfter m0 ((s2Of tr).take (k + 1)))) := by
  obtain ⟨n0, hn0, hsome0, hdied0⟩ := hprem
  constructor
  · intro m hm
    obtain ⟨n, hn, he⟩ := s2Of_take tr m
    rw [he, countP_s2Of_none] at hm
    rw [he, countP_s2Of_some]
    have hd : 1 ≤ (tr.take n).countP (isDied p) := le_trans hm (hfb n hn)
    have hn0n : n0 ≤ n := by
      by_contra hlt
      push_neg at hlt
      have := countP_take_mono tr (isDied p) n n0 (Nat.le_of_lt hlt)
      omega
    exact le_trans hsome0 (countP_take_mono tr (isSomeUpd p) n0 n hn0n)
  · intro k hk hget
    refine ⟨?_, rfl⟩
    rw [aggStateAfter_take_succ m0 (s2Of tr) k hk, hget]
    exact lookup_mapRemove_self _ p

/-- Witness for C5 on the concrete trace: after the `None` event is
processed the aggregate map no longer binds the departed peer. -/
theorem c5_some_processed_before_none_witness :
    (aggStateAfter [] ((s2Of c5Trace).take (1 + 1))).lookup "a" = none :=
  ((c5_some_processed_before_none c5Trace "a" []
      (by decide)
      ⟨1, by decide, by decide, by decide⟩).2 1 (by decide) (by decide)).1
